import Mathlib

/-
Verification development for the AgentFlow MVP workflow orchestration engine
(src/backend/core/workflow.py, with the agent interface of
src/backend/core/agent.py).

The Python code is shallowly embedded:
  * Python dicts become ordered association lists (insertion order kept,
    in-place overwrite on an existing key), matching CPython dict semantics.
  * Python values flowing through the workflow context become the inductive
    type `Value`.
  * In-place object mutation (the orchestrator mutates the context, the
    execution record, and - for Parallel nodes - the registered
    WorkflowDefinition itself) becomes explicit state passing through
    `RunState`.
  * A raised exception becomes the `Option String` component of each step's
    result: `some msg` is an exception propagating upward, and the mutated
    state is kept alongside it (Python mutations survive an unwind).
  * The recursive graph walk is driven by a fuel parameter; exhausted fuel
    models CPython's RecursionError (which `except Exception` also catches).
  * `asyncio.gather` in `_execute_parallel_tasks` is modelled by running the
    branch subtrees sequentially in list order, one legal schedule of the
    event loop; every property proved here about Parallel nodes is
    schedule-insensitive (they concern the successor-list mutation and
    error propagation, not interleaving).
  * CPython's `eval(cond, dict-empty-builtins, dict-empty)` is an external
    primitive; it is modelled by a tokenizer/parser/evaluator for the
    expression fragment reachable from condition strings: int, string,
    True/False/None literals, names (always NameError: empty globals),
    dotted attribute access, comparisons, and/or/not, parentheses.
    Anything else is a SyntaxError.  All failures are `Except.error`,
    which `evaluate_condition` turns into Python `False`.
-/

namespace AgentFlow

/-- Python runtime values reachable through the workflow context. -/
inductive Value where
  | vNone : Value
  | vBool : Bool → Value
  | vInt : Int → Value
  | vStr : String → Value
  | vDict : List (String × Value) → Value
deriving Repr

/-- Single-quote character, written via its code point. -/
def sq : String := String.singleton (Char.ofNat 39)

/-- Double-quote character, written via its code point. -/
def dq : Char := Char.ofNat 34

/-- Decimal rendering of a Python int. -/
def intStr (n : Int) : String :=
  if n < 0 then "-" ++ Nat.repr n.natAbs else Nat.repr n.natAbs

mutual

/-- Python repr() of a value. -/
def pyRepr : Value → String
  | .vNone => "None"
  | .vBool true => "True"
  | .vBool false => "False"
  | .vInt n => intStr n
  | .vStr s => sq ++ s ++ sq
  | .vDict l => "\x7b" ++ pyReprEntries l ++ "\x7d"

/-- Comma-joined `repr(key): repr(value)` entries of a dict. -/
def pyReprEntries : List (String × Value) → String
  | [] => ""
  | [kv] => sq ++ kv.1 ++ sq ++ ": " ++ pyRepr kv.2
  | kv :: rest => sq ++ kv.1 ++ sq ++ ": " ++ pyRepr kv.2 ++ ", " ++ pyReprEntries rest

end

/-- Python str() of a value: like repr() except on strings, which render
without quotes. -/
def pyStr : Value → String
  | .vStr s => s
  | v => pyRepr v

/-- Python truthiness. -/
def pyTruthy : Value → Bool
  | .vNone => false
  | .vBool b => b
  | .vInt n => n != 0
  | .vStr s => s != ""
  | .vDict l => !l.isEmpty

/-- Membership-preserving lookup in an ordered association list, the model of
`d[k]` / `d.get(k)` on a CPython dict. -/
def dictGet {α : Type} : List (String × α) → String → Option α
  | [], _ => none
  | kv :: rest, k => if kv.1 = k then some kv.2 else dictGet rest k

/-- Model of `d[k] = v` on a CPython dict: an existing key keeps its position
and gets the new value, a new key is appended. -/
def dictSet {α : Type} : List (String × α) → String → α → List (String × α)
  | [], k, v => [(k, v)]
  | kv :: rest, k, v => if kv.1 = k then (k, v) :: rest else kv :: dictSet rest k v

/-- Model of `k in d` on a CPython dict. -/
def dictMem {α : Type} (d : List (String × α)) (k : String) : Bool :=
  (dictGet d k).isSome

/-- Model of the dict literal `d-union` `{**a, **b}`: entries of `a` in order,
then entries of `b` written over them. -/
def dictMerge {α : Type} (a b : List (String × α)) : List (String × α) :=
  b.foldl (fun acc kv => dictSet acc kv.1 kv.2) a

/-- Model of Python `s.replace(pat, rep)` (all occurrences, left to right,
non-overlapping) on character lists.  Fuel-bounded; every step consumes at
least one character when `pat` is nonempty (the only reachable case: the
patterns are always of the shape `dollar-brace key brace`), so fuel
`s.length + 1` never runs out. -/
def strReplaceF : Nat → List Char → List Char → List Char → List Char
  | 0, s, _, _ => s
  | Nat.succ fuel, s, pat, rep =>
    match s with
    | [] => []
    | c :: rest =>
      if pat ≠ [] ∧ pat.isPrefixOf (c :: rest) then
        rep ++ strReplaceF fuel (List.drop pat.length (c :: rest)) pat rep
      else
        c :: strReplaceF fuel rest pat rep

/-- Python `s.replace(pat, rep)` on strings. -/
def pyReplace (s pat rep : String) : String :=
  String.mk (strReplaceF (s.data.length + 1) s.data pat.data rep.data)

/-- Tokens of the modelled Python expression fragment. -/
inductive Tok where
  | tIdent : String → Tok
  | tNum : Nat → Tok
  | tStr : String → Tok
  | tEq : Tok
  | tNe : Tok
  | tLt : Tok
  | tLe : Tok
  | tGt : Tok
  | tGe : Tok
  | tLparen : Tok
  | tRparen : Tok
  | tDot : Tok
deriving Repr, DecidableEq

/-- First character of a Python identifier. -/
def isIdentStart (c : Char) : Bool := c.isAlpha || c = '_'

/-- Non-first character of a Python identifier. -/
def isIdentChar (c : Char) : Bool := c.isAlphanum || c = '_'

/-- Longest prefix of characters satisfying `p`, with the rest. -/
def spanPred (p : Char → Bool) : List Char → List Char × List Char
  | [] => ([], [])
  | c :: rest =>
    if p c then
      let r := spanPred p rest
      (c :: r.1, r.2)
    else ([], c :: rest)

/-- Numeric value of a digit string. -/
def digitsToNat (l : List Char) : Nat :=
  l.foldl (fun n c => n * 10 + (c.toNat - 48)) 0

/-- Tokenizer for the modelled expression fragment.  A character outside the
fragment (notably the dollar sign of an unsubstituted placeholder) is a
SyntaxError, as under CPython `eval`.  Fuel-bounded; every step consumes at
least one character, so fuel `input.length + 1` never runs out. -/
def tokenizeF : Nat → List Char → Except String (List Tok)
  | 0, _ => .error "SyntaxError: invalid syntax"
  | Nat.succ _, [] => .ok []
  | Nat.succ fuel, c :: rest =>
    if c = ' ' ∨ c = '\t' then tokenizeF fuel rest
    else if isIdentStart c then
      (tokenizeF fuel (spanPred isIdentChar rest).2).map
        (fun ts => Tok.tIdent (String.mk (c :: (spanPred isIdentChar rest).1)) :: ts)
    else if c.isDigit then
      (tokenizeF fuel (spanPred Char.isDigit rest).2).map
        (fun ts => Tok.tNum (digitsToNat (c :: (spanPred Char.isDigit rest).1)) :: ts)
    else if c = '=' then
      match rest with
      | '=' :: r => (tokenizeF fuel r).map (fun ts => Tok.tEq :: ts)
      | _ => .error "SyntaxError: invalid syntax"
    else if c = '!' then
      match rest with
      | '=' :: r => (tokenizeF fuel r).map (fun ts => Tok.tNe :: ts)
      | _ => .error "SyntaxError: invalid syntax"
    else if c = '<' then
      match rest with
      | '=' :: r => (tokenizeF fuel r).map (fun ts => Tok.tLe :: ts)
      | _ => (tokenizeF fuel rest).map (fun ts => Tok.tLt :: ts)
    else if c = '>' then
      match rest with
      | '=' :: r => (tokenizeF fuel r).map (fun ts => Tok.tGe :: ts)
      | _ => (tokenizeF fuel rest).map (fun ts => Tok.tGt :: ts)
    else if c = Char.ofNat 39 ∨ c = dq then
      match (spanPred (fun ch => ch ≠ c) rest).2 with
      | _ :: r =>
        (tokenizeF fuel r).map
          (fun ts => Tok.tStr (String.mk (spanPred (fun ch => ch ≠ c) rest).1) :: ts)
      | [] => .error "SyntaxError: unterminated string literal"
    else if c = '(' then (tokenizeF fuel rest).map (fun ts => Tok.tLparen :: ts)
    else if c = ')' then (tokenizeF fuel rest).map (fun ts => Tok.tRparen :: ts)
    else if c = '.' then (tokenizeF fuel rest).map (fun ts => Tok.tDot :: ts)
    else .error "SyntaxError: invalid syntax"

/-- Comparison operators of the fragment. -/
inductive CmpOp where
  | ceq : CmpOp
  | cne : CmpOp
  | clt : CmpOp
  | cle : CmpOp
  | cgt : CmpOp
  | cge : CmpOp
deriving Repr, DecidableEq

/-- Abstract syntax of the modelled expression fragment. -/
inductive PyExpr where
  | litBool : Bool → PyExpr
  | litNone : PyExpr
  | litInt : Nat → PyExpr
  | litStr : String → PyExpr
  | pName : String → PyExpr
  | pAttr : PyExpr → String → PyExpr
  | pCmp : CmpOp → PyExpr → PyExpr → PyExpr
  | pAnd : PyExpr → PyExpr → PyExpr
  | pOr : PyExpr → PyExpr → PyExpr
  | pNot : PyExpr → PyExpr
deriving Repr

/-- Comparison token to operator, if the token is one. -/
def cmpOfTok : Tok → Option CmpOp
  | .tEq => some .ceq
  | .tNe => some .cne
  | .tLt => some .clt
  | .tLe => some .cle
  | .tGt => some .cgt
  | .tGe => some .cge
  | _ => none

mutual

/-- Recursive-descent parse of an `or` chain (lowest precedence). -/
def parseOrF : Nat → List Tok → Except String (PyExpr × List Tok)
  | 0, _ => .error "SyntaxError: invalid syntax"
  | Nat.succ fuel, ts => do
    let (a, r) ← parseAndF fuel ts
    match r with
    | .tIdent "or" :: r2 => do
      let (b, r3) ← parseOrF fuel r2
      .ok (.pOr a b, r3)
    | _ => .ok (a, r)

/-- Recursive-descent parse of an `and` chain. -/
def parseAndF : Nat → List Tok → Except String (PyExpr × List Tok)
  | 0, _ => .error "SyntaxError: invalid syntax"
  | Nat.succ fuel, ts => do
    let (a, r) ← parseNotF fuel ts
    match r with
    | .tIdent "and" :: r2 => do
      let (b, r3) ← parseAndF fuel r2
      .ok (.pAnd a b, r3)
    | _ => .ok (a, r)

/-- Recursive-descent parse of a `not` chain. -/
def parseNotF : Nat → List Tok → Except String (PyExpr × List Tok)
  | 0, _ => .error "SyntaxError: invalid syntax"
  | Nat.succ fuel, ts =>
    match ts with
    | .tIdent "not" :: r =>
      (parseNotF fuel r).map (fun er => (.pNot er.1, er.2))
    | _ => parseCmpF fuel ts

/-- Recursive-descent parse of at most one comparison between primaries.
Chained comparisons are outside the modelled fragment (no condition in the
repository chains them) and fail to a SyntaxError, which the evaluator's
callers collapse to False just like every other failure. -/
def parseCmpF : Nat → List Tok → Except String (PyExpr × List Tok)
  | 0, _ => .error "SyntaxError: invalid syntax"
  | Nat.succ fuel, ts => do
    let (a, r) ← parsePrimaryF fuel ts
    match r with
    | t :: r2 =>
      match cmpOfTok t with
      | some op => do
        let (b, r3) ← parsePrimaryF fuel r2
        .ok (.pCmp op a b, r3)
      | none => .ok (a, r)
    | [] => .ok (a, [])

/-- Recursive-descent parse of a primary with dotted-attribute suffixes. -/
def parsePrimaryF : Nat → List Tok → Except String (PyExpr × List Tok)
  | 0, _ => .error "SyntaxError: invalid syntax"
  | Nat.succ fuel, ts => do
    let (a, r) ← parseAtomF fuel ts
    parseAttrSufF fuel a r

/-- Dotted-attribute suffix loop after a primary. -/
def parseAttrSufF : Nat → PyExpr → List Tok → Except String (PyExpr × List Tok)
  | 0, _, _ => .error "SyntaxError: invalid syntax"
  | Nat.succ fuel, a, ts =>
    match ts with
    | .tDot :: .tIdent nm :: r => parseAttrSufF fuel (.pAttr a nm) r
    | .tDot :: _ => .error "SyntaxError: invalid syntax"
    | _ => .ok (a, ts)

/-- Recursive-descent parse of an atom: literal, name, or parenthesis. -/
def parseAtomF : Nat → List Tok → Except String (PyExpr × List Tok)
  | 0, _ => .error "SyntaxError: invalid syntax"
  | Nat.succ fuel, ts =>
    match ts with
    | .tIdent "True" :: r => .ok (.litBool true, r)
    | .tIdent "False" :: r => .ok (.litBool false, r)
    | .tIdent "None" :: r => .ok (.litNone, r)
    | .tIdent "and" :: _ => .error "SyntaxError: invalid syntax"
    | .tIdent "or" :: _ => .error "SyntaxError: invalid syntax"
    | .tIdent "not" :: _ => .error "SyntaxError: invalid syntax"
    | .tIdent nm :: r => .ok (.pName nm, r)
    | .tNum n :: r => .ok (.litInt n, r)
    | .tStr s :: r => .ok (.litStr s, r)
    | .tLparen :: r => do
      let (e, r2) ← parseOrF fuel r
      match r2 with
      | .tRparen :: r3 => .ok (e, r3)
      | _ => .error "SyntaxError: invalid syntax"
    | _ => .error "SyntaxError: invalid syntax"

end

/-- Numeric view of a value for comparisons: Python bools are ints. -/
def toNum : Value → Option Int
  | .vInt n => some n
  | .vBool b => some (if b then 1 else 0)
  | _ => none

/-- Python `==` on the values reachable as comparison operands (literals
only: ints, bools, strings, None; a dict can never reach a comparison
because names always raise NameError under empty globals). -/
def pyEq (a b : Value) : Bool :=
  match toNum a, toNum b with
  | some x, some y => x == y
  | _, _ =>
    match a, b with
    | .vStr x, .vStr y => x == y
    | .vNone, .vNone => true
    | _, _ => false

/-- Python ordering comparisons; mixed-kind operands raise TypeError. -/
def pyOrd (isLt isEq : Bool → Bool → Bool) (a b : Value) : Except String Value :=
  match toNum a, toNum b with
  | some x, some y => .ok (.vBool (isLt (decide (x < y)) (isEq (decide (x = y)) true)))
  | _, _ =>
    match a, b with
    | .vStr x, .vStr y => .ok (.vBool (isLt (decide (x < y)) (isEq (decide (x = y)) true)))
    | _, _ => .error "TypeError: unsupported comparison"

/-- Python comparison dispatch. -/
def pyCompare (op : CmpOp) (a b : Value) : Except String Value :=
  match op with
  | .ceq => .ok (.vBool (pyEq a b))
  | .cne => .ok (.vBool (!pyEq a b))
  | .clt => pyOrd (fun lt _ => lt) (fun _ _ => false) a b
  | .cle => pyOrd (fun lt eq => lt || eq) (fun eq _ => eq) a b
  | .cgt => pyOrd (fun lt eq => !lt && !eq) (fun eq _ => eq) a b
  | .cge => pyOrd (fun lt _ => !lt) (fun _ _ => false) a b

/-- Evaluation of a parsed expression under empty globals and locals, as in
`eval(cond, dict-with-empty-builtins, dict-empty)`: every name lookup is a
NameError, attribute access never gets a receiver that carries attributes. -/
def pyEvalExpr : PyExpr → Except String Value
  | .litBool b => .ok (.vBool b)
  | .litNone => .ok .vNone
  | .litInt n => .ok (.vInt (Int.ofNat n))
  | .litStr s => .ok (.vStr s)
  | .pName nm => .error ("NameError: name " ++ sq ++ nm ++ sq ++ " is not defined")
  | .pAttr e _ => do
    let _ ← pyEvalExpr e
    .error "AttributeError"
  | .pCmp op a b => do
    let va ← pyEvalExpr a
    let vb ← pyEvalExpr b
    pyCompare op va vb
  | .pAnd a b => do
    let va ← pyEvalExpr a
    if pyTruthy va then pyEvalExpr b else .ok va
  | .pOr a b => do
    let va ← pyEvalExpr a
    if pyTruthy va then .ok va else pyEvalExpr b
  | .pNot a => do
    let va ← pyEvalExpr a
    .ok (.vBool (!pyTruthy va))

/-- Model of CPython `eval(s, dict-with-empty-builtins, dict-empty)` on the
reachable fragment: tokenize, parse, demand the whole input was consumed,
then evaluate. -/
def pyEval (s : String) : Except String Value :=
  match tokenizeF (s.data.length + 1) s.data with
  | .error e => .error e
  | .ok toks =>
    match parseOrF (8 * (toks.length + 1)) toks with
    | .error e => .error e
    | .ok (e, rest) => if rest.isEmpty then pyEvalExpr e else .error "SyntaxError: invalid syntax"

/-- WorkflowStatus of workflow.py. -/
inductive WorkflowStatus where
  | pending : WorkflowStatus
  | running : WorkflowStatus
  | completed : WorkflowStatus
  | failed : WorkflowStatus
  | cancelled : WorkflowStatus
deriving Repr, DecidableEq

/-- TaskType of workflow.py. -/
inductive TaskType where
  | sequential : TaskType
  | parallel : TaskType
  | conditional : TaskType
  | loop : TaskType
deriving Repr, DecidableEq

/-- AgentStatus of agent.py. -/
inductive AgentStatus where
  | idle : AgentStatus
  | running : AgentStatus
  | completed : AgentStatus
  | failed : AgentStatus
  | paused : AgentStatus
deriving Repr, DecidableEq

/-- One entry of `context.execution_history`: the dict appended by
`_execute_task` on entering a task.  The wall-clock `started_at` field is
external and abstracted away; `error` is the key written by the `except`
handler of `_execute_task`. -/
structure HistEntry where
  task_id : String
  task_name : String
  type : TaskType
  error : Option String
deriving Repr, DecidableEq

/-- WorkflowContext of workflow.py (the dataclass). -/
structure WorkflowContext where
  vars : List (String × Value)
  agent_outputs : List (String × Value)
  execution_history : List HistEntry
deriving Repr

/-- WorkflowContext.get: `variables` first, then `agent_outputs`, then the
default. -/
def WorkflowContext.get (ctx : WorkflowContext) (key : String) (default : Value) : Value :=
  match dictGet ctx.vars key with
  | some v => v
  | none =>
    match dictGet ctx.agent_outputs key with
    | some v => v
    | none => default

/-- WorkflowContext.set: writes into `variables`. -/
def WorkflowContext.set (ctx : WorkflowContext) (key : String) (value : Value) : WorkflowContext :=
  { ctx with vars := dictSet ctx.vars key value }

/-- WorkflowContext.set_agent_output: writes into `agent_outputs`. -/
def WorkflowContext.set_agent_output (ctx : WorkflowContext) (key : String) (output : Value) : WorkflowContext :=
  { ctx with agent_outputs := dictSet ctx.agent_outputs key output }

/-- WorkflowTask of workflow.py.  `max_retries` and `timeout_seconds` are
carried by the Python model but never read by the orchestrator, so they are
omitted; `agent_config` likewise. -/
structure WorkflowTask where
  id : String
  name : String
  type : TaskType
  agent_id : Option String
  input_mapping : List (String × String)
  output_key : Option String
  condition : Option String
  next_tasks : List String
deriving Repr

/-- WorkflowDefinition of workflow.py. -/
structure WorkflowDefinition where
  id : String
  name : String
  description : String
  tasks : List WorkflowTask
  entry_task_id : String
  vars : List (String × Value)
deriving Repr

/-- WorkflowDefinition.get_task: first task with the given id, linear scan. -/
def WorkflowDefinition.get_task (w : WorkflowDefinition) (task_id : String) : Option WorkflowTask :=
  w.tasks.find? (fun t => t.id == task_id)

/-- AgentExecution of agent.py, restricted to the fields the orchestrator
reads: the completion status and the output payload. -/
structure AgentExecution where
  status : AgentStatus
  output_data : Value
  errors : List String
deriving Repr

/-- A task handler: the orchestrator's view of `await agent.execute(input)`.
It consumes the prepared input mapping and either returns an
AgentExecution or raises (`Except.error`).  BaseAgent.execute as written
catches internally and returns a Failed status instead of raising, but the
orchestrator must be correct against any handler. -/
def Agent : Type := List (String × Value) → Except String AgentExecution

/-- WorkflowExecution of workflow.py.  Wall-clock timestamps are external;
their presence is modelled by `Option Unit`, and the float stored under
`duration_seconds` is abstracted to `vNone` (only the key is observable in
this embedding). -/
structure WorkflowExecution where
  id : String
  workflow_id : String
  status : WorkflowStatus
  started_at : Option Unit
  completed_at : Option Unit
  context : List (String × Value)
  task_executions : List (String × AgentExecution)
  errors : List String
  metrics : List (String × Value)
deriving Repr

/-- WorkflowOrchestrator's registries.  The Python registries hold object
references; here the in-place mutations of a run are written back
explicitly by `execute_workflow`. -/
structure Orchestrator where
  agents : List (String × Agent)
  workflows : List (String × WorkflowDefinition)
  executions : List (String × WorkflowExecution)

/-- WorkflowOrchestrator.register_agent. -/
def register_agent (o : Orchestrator) (agent_id : String) (agent : Agent) : Orchestrator :=
  { o with agents := dictSet o.agents agent_id agent }

/-- WorkflowOrchestrator.register_workflow: stores the definition under its
id.  No validation of any kind is performed. -/
def register_workflow (o : Orchestrator) (workflow : WorkflowDefinition) : Orchestrator :=
  { o with workflows := dictSet o.workflows workflow.id workflow }

/-- Mutable state threaded through one run's graph walk: the workflow
definition itself (mutated in place by `_execute_parallel_tasks`), the
shared context, and the per-task executions recorded on the
WorkflowExecution. -/
structure RunState where
  workflow : WorkflowDefinition
  context : WorkflowContext
  task_executions : List (String × AgentExecution)
deriving Repr

/-- Condition string after the placeholder substitution loop of
`_evaluate_condition`: for each context VARIABLE (agent_outputs are not
consulted), every occurrence of `dollar-brace key brace` is replaced by the
value's str(). -/
def substitutedCondition (condition : String) (ctx : WorkflowContext) : String :=
  ctx.vars.foldl
    (fun c kv => pyReplace c ("$\x7b" ++ kv.1 ++ "\x7d") (pyStr kv.2)) condition

/-- WorkflowOrchestrator._evaluate_condition: substitute, then `eval` under
empty builtins; any exception is swallowed and Python False is returned.
The Python return annotation promises `bool`, but the raw `eval` result is
returned unchanged on success. -/
def evaluate_condition (condition : String) (context : WorkflowContext) : Value :=
  match pyEval (substitutedCondition condition context) with
  | .ok v => v
  | .error _ => .vBool false

/-- Appends the history dict recorded on entering a task. -/
def pushHistory (s : RunState) (t : WorkflowTask) : RunState :=
  { s with context := { s.context with
      execution_history := s.context.execution_history ++ [⟨t.id, t.name, t.type, none⟩] } }

/-- Writes the error key of the LAST history entry, the model of
`context.execution_history[-1]["error"] = str(e)` — note the Python code
annotates whatever entry is last overall (the most deeply entered task),
not necessarily the entry of the task whose handler is unwinding. -/
def setLastErr : List HistEntry → String → List HistEntry
  | [], _ => []
  | [h], e => [{ h with error := some e }]
  | h :: rest, e => h :: setLastErr rest e

/-- RunState version of `setLastErr`. -/
def setLastHistError (s : RunState) (e : String) : RunState :=
  { s with context := { s.context with
      execution_history := setLastErr s.context.execution_history e } }

/-- Inner value test for `if value is not None`. -/
def isVNone : Value → Bool
  | .vNone => true
  | _ => false

/-- WorkflowOrchestrator._execute_sequential_task: resolve the handler,
prepare the input by reading each `input_mapping` source key from the
context (absent and None-valued sources are silently omitted), invoke the
handler, record its AgentExecution, and store its output under
`output_key` only when the key is set and the status is COMPLETED. -/
def execute_sequential_task (agents : List (String × Agent)) (task : WorkflowTask)
    (s : RunState) : RunState × Option String :=
  match task.agent_id with
  | none => (s, some "Agent None not found")
  | some aid =>
    if aid = "" then (s, some "Agent  not found")
    else
      match dictGet agents aid with
      | none => (s, some ("Agent " ++ aid ++ " not found"))
      | some ag =>
        let input_data := task.input_mapping.foldl
          (fun acc kv =>
            let v := s.context.get kv.2 Value.vNone
            if isVNone v then acc else dictSet acc kv.1 v) []
        match ag input_data with
        | .error e => (s, some e)
        | .ok ae =>
          let s := { s with task_executions := dictSet s.task_executions task.id ae }
          let s :=
            match task.output_key with
            | some okey =>
              if okey ≠ "" ∧ ae.status = AgentStatus.completed then
                { s with context := s.context.set_agent_output okey ae.output_data }
              else s
            | none => s
          (s, none)

/-- Clears `next_tasks` of the first task carrying the given id, the model
of the in-place `task.next_tasks = []` on the object `get_task` returned. -/
def clearNextTasksList : List WorkflowTask → String → List WorkflowTask
  | [], _ => []
  | t :: rest, tid =>
    if t.id == tid then { t with next_tasks := [] } :: rest
    else t :: clearNextTasksList rest tid

/-- WorkflowDefinition after a Parallel node consumed its successor list. -/
def clearNextTasks (w : WorkflowDefinition) (task_id : String) : WorkflowDefinition :=
  { w with tasks := clearNextTasksList w.tasks task_id }

/-- Runs a list of task ids in order through `rec`, stopping at the first
propagating exception: the model both of the sequential successor loop of
`_execute_task` and of the chosen schedule for `asyncio.gather`. -/
def runTaskList (rec : String → RunState → RunState × Option String) :
    List String → RunState → RunState × Option String
  | [], s => (s, none)
  | tid :: rest, s =>
    match rec tid s with
    | (s2, some e) => (s2, some e)
    | (s2, none) => runTaskList rec rest s2

/-- WorkflowOrchestrator._execute_parallel_tasks: snapshot the successor
ids, clear the node's `next_tasks` in place on the shared definition, then
run every branch (sequential schedule of the gather). -/
def execute_parallel_tasks (rec : String → RunState → RunState × Option String)
    (task : WorkflowTask) (s : RunState) : RunState × Option String :=
  let ids := task.next_tasks
  let s2 := { s with workflow := clearNextTasks s.workflow task.id }
  runTaskList rec ids s2

/-- WorkflowOrchestrator._execute_conditional_task: a missing or empty
condition raises; otherwise the condition value's truthiness selects
`next_tasks[0]` (true, if present) or `next_tasks[1]` (false, if present),
and a missing branch is a no-op. -/
def execute_conditional_task (rec : String → RunState → RunState × Option String)
    (task : WorkflowTask) (s : RunState) : RunState × Option String :=
  match task.condition with
  | none => (s, some "Conditional task requires a condition")
  | some c =>
    if c = "" then (s, some "Conditional task requires a condition")
    else
      match pyTruthy (evaluate_condition c s.context), task.next_tasks with
      | true, t0 :: _ => rec t0 s
      | false, _ :: t1 :: _ => rec t1 s
      | _, _ => (s, none)

/-- Number of iterations `range(max_iterations)` yields, or a TypeError:
Python ints (negatives clamp to an empty range) and bools (ints in Python)
are accepted, anything else raises. -/
def toIterCount : Value → Option Nat
  | .vInt n => some n.toNat
  | .vBool b => some (if b then 1 else 0)
  | _ => none

/-- Iterations of `_execute_loop_task`'s for-loop: write `loop_index`, check
the condition (a missing or empty condition string is skipped — Python
truthiness of `task.condition` — so the loop then always continues), run
the body `next_tasks[0]` if present, and recurse.  Exceptions from the body
propagate. -/
def loopIter (rec : String → RunState → RunState × Option String) (task : WorkflowTask) :
    Nat → Nat → RunState → RunState × Option String
  | 0, _, s => (s, none)
  | Nat.succ rem, i, s =>
    let s1 := { s with context := s.context.set "loop_index" (Value.vInt (Int.ofNat i)) }
    let go : Bool :=
      match task.condition with
      | none => true
      | some c => if c = "" then true else pyTruthy (evaluate_condition c s1.context)
    if go then
      match (match task.next_tasks with
             | [] => (s1, none)
             | t0 :: _ => rec t0 s1) with
      | (s2, some e) => (s2, some e)
      | (s2, none) => loopIter rec task rem (i + 1) s2
    else (s1, none)

/-- WorkflowOrchestrator._execute_loop_task: read the iteration cap from
context key `max_loop_iterations` (default 10) and run the bounded loop. -/
def execute_loop_task (rec : String → RunState → RunState × Option String)
    (task : WorkflowTask) (s : RunState) : RunState × Option String :=
  match toIterCount (s.context.get "max_loop_iterations" (Value.vInt 10)) with
  | none => (s, some "TypeError: object cannot be interpreted as an integer")
  | some n => loopIter rec task n 0 s

/-- Live read of `task.next_tasks` for the successor loop at the end of
`_execute_task`: the Python local still aliases the (possibly mutated)
task object inside the definition, so the list is re-fetched from the
current workflow state — after a Parallel dispatch it is empty. -/
def nextTasksOf (w : WorkflowDefinition) (task_id : String) : List String :=
  match w.get_task task_id with
  | some t => t.next_tasks
  | none => []

/-- One unfolding of WorkflowOrchestrator._execute_task, parameterized by
the recursive walk `rec`: look the task up (unknown id raises), record the
history entry, dispatch on the task type, and then — whatever the type
was — run the task's (re-fetched) successor list.  An exception from
either phase annotates the last history entry and re-raises. -/
def execute_task_body (agents : List (String × Agent))
    (rec : String → RunState → RunState × Option String)
    (task_id : String) (s : RunState) : RunState × Option String :=
  match s.workflow.get_task task_id with
  | none => (s, some ("Task " ++ task_id ++ " not found in workflow"))
  | some task =>
    let s1 := pushHistory s task
    let r :=
      match task.type with
      | .sequential => execute_sequential_task agents task s1
      | .parallel => execute_parallel_tasks rec task s1
      | .conditional => execute_conditional_task rec task s1
      | .loop => execute_loop_task rec task s1
    match r with
    | (s2, some e) => (setLastHistError s2 e, some e)
    | (s2, none) =>
      match runTaskList rec (nextTasksOf s2.workflow task_id) s2 with
      | (s3, some e) => (setLastHistError s3 e, some e)
      | (s3, none) => (s3, none)

/-- WorkflowOrchestrator._execute_task, fuel-bounded: exhausted fuel models
CPython's RecursionError, which the `except Exception` at the top of
`execute_workflow` also catches. -/
def execute_task (agents : List (String × Agent)) :
    Nat → String → RunState → RunState × Option String
  | 0 => fun _ s => (s, some "maximum recursion depth exceeded")
  | Nat.succ fuel => execute_task_body agents (execute_task agents fuel)

/-- Context built at the top of `execute_workflow`: workflow default
variables overridden by the caller's input. -/
def initContext (w : WorkflowDefinition) (input_data : List (String × Value)) : WorkflowContext :=
  { vars := dictMerge w.vars input_data
    agent_outputs := []
    execution_history := [] }

/-- Initial run state of one `execute_workflow` call. -/
def initRunState (w : WorkflowDefinition) (input_data : List (String × Value)) : RunState :=
  { workflow := w, context := initContext w input_data, task_executions := [] }

/-- WorkflowOrchestrator.execute_workflow.  An unknown workflow id raises to
the caller (`Except.error`).  Otherwise the walk runs from the entry task;
any exception it raises is caught, recorded in `errors` and turned into a
Failed status, a successful walk gives Completed; either way the finally
block snapshots the context and the duration metric, and the execution is
stored.  `exec_id` stands for the fresh uuid4, and `fuel` for the Python
recursion budget.  The mutated definition is written back to the registry,
modelling the Python registry's aliasing of the mutated object. -/
def execute_workflow (o : Orchestrator) (workflow_id : String)
    (input_data : List (String × Value)) (fuel : Nat) (exec_id : String) :
    Except String (Orchestrator × WorkflowExecution) :=
  match dictGet o.workflows workflow_id with
  | none => .error ("Workflow " ++ workflow_id ++ " not found")
  | some workflow =>
    let r := execute_task o.agents fuel workflow.entry_task_id (initRunState workflow input_data)
    let ex : WorkflowExecution :=
      { id := exec_id
        workflow_id := workflow_id
        status := match r.2 with | none => .completed | some _ => .failed
        started_at := some ()
        completed_at := some ()
        context := [("variables", Value.vDict r.1.context.vars),
                    ("agent_outputs", Value.vDict r.1.context.agent_outputs)]
        task_executions := r.1.task_executions
        errors := match r.2 with | none => [] | some e => [e]
        metrics := [("duration_seconds", Value.vNone)] }
    .ok ({ o with
            workflows := dictSet o.workflows workflow_id r.1.workflow
            executions := dictSet o.executions ex.id ex }, ex)

/-- Value test for `if not a boolean` observations on evaluator results. -/
def isVBool : Value → Bool
  | .vBool _ => true
  | _ => false

/-- Visited task ids of a walk, in entry order: the observable trace the
spec's execution-history entries carry. -/
def visitedIds (s : RunState) : List String :=
  s.context.execution_history.map (fun h => h.task_id)

/-- Empty context for evaluator-only statements. -/
def emptyCtx : WorkflowContext := { vars := [], agent_outputs := [], execution_history := [] }

/-
Concrete fixtures used by counterexamples, failing runs and witnesses.
-/

/-- Handler that echoes its prepared input as its output and completes. -/
def echoAgent : Agent := fun input =>
  .ok { status := .completed, output_data := .vDict input, errors := [] }

/-- Handler that signals failure through its completion status without
raising — exactly what BaseAgent.execute does on an internal error. -/
def failStatusAgent : Agent := fun _ =>
  .ok { status := .failed, output_data := .vDict [], errors := ["handler failed"] }

/-- Handler whose invocation itself raises. -/
def raiseAgent : Agent := fun _ => .error "handler exploded"

/-- Shorthand for a Sequential task. -/
def seqTask (id aid : String) (imap : List (String × String)) (okey : Option String)
    (nxt : List String) : WorkflowTask :=
  { id := id, name := id, type := .sequential, agent_id := some aid,
    input_mapping := imap, output_key := okey, condition := none, next_tasks := nxt }

/-- Spec section 8 end-to-end scenario: Sequential A (echo handler, output
key out1) feeding Conditional B over `out1.flag`, with terminal Sequential
branches C and D. -/
def wfEndToEnd : WorkflowDefinition :=
  { id := "wf-e2e", name := "e2e", description := "", entry_task_id := "A", vars := [],
    tasks := [ seqTask "A" "echo" [("flag", "flag")] (some "out1") ["B"],
               { id := "B", name := "B", type := .conditional, agent_id := none,
                 input_mapping := [], output_key := none,
                 condition := some "$\x7bout1.flag\x7d == true", next_tasks := ["C", "D"] },
               seqTask "C" "echo" [] none [],
               seqTask "D" "echo" [] none [] ] }

/-- Conditional entry task with a true condition and two successors. -/
def wfCondBoth : WorkflowDefinition :=
  { id := "wf-cond", name := "cond", description := "", entry_task_id := "B", vars := [],
    tasks := [ { id := "B", name := "B", type := .conditional, agent_id := none,
                 input_mapping := [], output_key := none,
                 condition := some "True", next_tasks := ["C", "D"] },
               seqTask "C" "echo" [] none [],
               seqTask "D" "echo" [] none [] ] }

/-- Loop entry task with an always-true condition and body B. -/
def wfLoopThrice : WorkflowDefinition :=
  { id := "wf-loop", name := "loop", description := "", entry_task_id := "L", vars := [],
    tasks := [ { id := "L", name := "L", type := .loop, agent_id := none,
                 input_mapping := [], output_key := none,
                 condition := some "True", next_tasks := ["B"] },
               seqTask "B" "echo" [] none [] ] }

/-- Definition with a dangling entry task id and no tasks at all. -/
def wfDangling : WorkflowDefinition :=
  { id := "wf-bad", name := "bad", description := "", entry_task_id := "missing",
    vars := [], tasks := [] }

/-- Two-task chain whose first handler signals failure by status. -/
def wfFailStatus : WorkflowDefinition :=
  { id := "wf-fail", name := "fail", description := "", entry_task_id := "T1", vars := [],
    tasks := [ seqTask "T1" "failer" [] (some "k1") ["T2"],
               seqTask "T2" "echo" [] (some "k2") [] ] }

/-- Parallel entry task fanning out to X and Y. -/
def wfPar : WorkflowDefinition :=
  { id := "wf-par", name := "par", description := "", entry_task_id := "P", vars := [],
    tasks := [ { id := "P", name := "P", type := .parallel, agent_id := none,
                 input_mapping := [], output_key := none,
                 condition := none, next_tasks := ["X", "Y"] },
               seqTask "X" "echo" [] none [],
               seqTask "Y" "echo" [] none [] ] }

/-- Conditional task over the unsubstitutable placeholder condition of the
end-to-end scenario, as a standalone fixture. -/
def e2eCond : WorkflowTask :=
  { id := "B", name := "B", type := .conditional, agent_id := none, input_mapping := [],
    output_key := none, condition := some "$\x7bout1.flag\x7d == true",
    next_tasks := ["C", "D"] }

/-- Chain whose first handler raises. -/
def wfRaise : WorkflowDefinition :=
  { id := "wf-raise", name := "raise", description := "", entry_task_id := "R", vars := [],
    tasks := [ seqTask "R" "boom" [] (some "kr") ["S"],
               seqTask "S" "echo" [] (some "ks") [] ] }

/-- Orchestrator for the raising-handler scenario. -/
def orchRaise : Orchestrator :=
  { agents := [("boom", raiseAgent), ("echo", echoAgent)],
    workflows := [("wf-raise", wfRaise)], executions := [] }

/-- Initial run state of the raising-handler scenario. -/
def rsRaise : RunState := initRunState wfRaise []

/-- Orchestrator with no registrations. -/
def emptyOrch : Orchestrator := { agents := [], workflows := [], executions := [] }

/-- Orchestrator for the failed-status scenario. -/
def orchFailStatus : Orchestrator :=
  { agents := [("failer", failStatusAgent), ("echo", echoAgent)],
    workflows := [("wf-fail", wfFailStatus)], executions := [] }

/-- Orchestrator for the parallel scenario. -/
def orchPar : Orchestrator :=
  { agents := [("echo", echoAgent)], workflows := [("wf-par", wfPar)], executions := [] }

/-- Orchestrator state after one run of the parallel workflow. -/
def orchParAfter : Orchestrator :=
  match execute_workflow orchPar "wf-par" [] 20 "e1" with
  | .ok p => p.1
  | .error _ => orchPar

/-
Association-list lemmas shared by several claim proofs.
-/

theorem dictGet_dictSet_self {α : Type} (d : List (String × α)) (k : String) (v : α) :
    dictGet (dictSet d k v) k = some v := by
  induction d with
  | nil => simp [dictSet, dictGet]
  | cons kv rest ih =>
    by_cases h : kv.1 = k <;> simp [dictSet, dictGet, h, ih]

theorem dictMem_dictSet_of_mem {α : Type} (d : List (String × α)) (k k2 : String) (v : α)
    (h : dictMem d k = true) : dictMem (dictSet d k2 v) k = true := by
  induction d with
  | nil => simp [dictMem, dictGet] at h
  | cons kv rest ih =>
    by_cases h1 : kv.1 = k2
    · by_cases h2 : k2 = k
      · simp [dictSet, dictMem, dictGet, h1, h2]
      · simp [dictSet, dictMem, dictGet, h1, h2] at h ⊢
        exact h
    · simp [dictSet, dictMem, dictGet, h1] at h ⊢
      by_cases h3 : kv.1 = k
      · simp [h3]
      · simp [h3] at h ⊢
        exact ih h

theorem setLastErr_append (l : List HistEntry) (h : HistEntry) (e : String) :
    setLastErr (l ++ [h]) e = l ++ [{ h with error := some e }] := by
  induction l with
  | nil => rfl
  | cons a rest ih =>
    cases rest with
    | nil => rfl
    | cons b rest2 =>
      simp only [List.cons_append] at ih ⊢
      rw [show setLastErr (a :: b :: (rest2 ++ [h])) e
            = a :: setLastErr (b :: (rest2 ++ [h])) e from rfl, ih]

/-- C9: a context read resolves in `variables` first, then `agent_outputs`,
then the supplied default, so a key present in both namespaces resolves to
the `variables` value. -/
theorem context_get_variables_win :
    (∀ (ctx : WorkflowContext) (k : String) (d v : Value),
       dictGet ctx.vars k = some v → ctx.get k d = v) ∧
    (∀ (ctx : WorkflowContext) (k : String) (d v : Value),
       dictGet ctx.vars k = none → dictGet ctx.agent_outputs k = some v → ctx.get k d = v) ∧
    (∀ (ctx : WorkflowContext) (k : String) (d : Value),
       dictGet ctx.vars k = none → dictGet ctx.agent_outputs k = none → ctx.get k d = d) := by
  refine ⟨?_, ?_, ?_⟩
  · intro ctx k d v h
    simp [WorkflowContext.get, h]
  · intro ctx k d v h1 h2
    simp [WorkflowContext.get, h1, h2]
  · intro ctx k d h1 h2
    simp [WorkflowContext.get, h1, h2]

/-- Witness for C9 at concrete contexts: a key in both namespaces yields the
variables value, a key only in agent_outputs yields that value, an absent
key yields the default. -/
theorem context_get_variables_win_witness :
    (WorkflowContext.mk [("k", Value.vInt 1)] [("k", Value.vInt 2)] []).get "k" Value.vNone
        = Value.vInt 1 ∧
    (WorkflowContext.mk [] [("k", Value.vInt 2)] []).get "k" Value.vNone = Value.vInt 2 ∧
    (WorkflowContext.mk [] [] []).get "k" Value.vNone = Value.vNone :=
  ⟨context_get_variables_win.1 _ "k" Value.vNone (Value.vInt 1) rfl,
   context_get_variables_win.2.1 _ "k" Value.vNone (Value.vInt 2) rfl rfl,
   context_get_variables_win.2.2 _ "k" Value.vNone rfl rfl⟩

/-- C2 (failing run): a Conditional entry task with condition `True` and
successors C, D dispatches its chosen branch C, but the unconditional
successor loop of `_execute_task` then re-executes C and also executes D,
so the false branch runs and the true branch runs twice. -/
theorem conditional_true_executes_both_branches :
    visitedIds (execute_task [("echo", echoAgent)] 20 "B" (initRunState wfCondBoth [])).1
      = ["B", "C", "C", "D"] := rfl

/-- C3 (failing run): a Loop task with cap 3 and an always-true condition
writes loop_index 0,1,2 and runs its body three times, but the successor
loop of `_execute_task` then runs the body a fourth time after the loop
finished. -/
theorem loop_body_runs_fourth_time :
    visitedIds (execute_task [("echo", echoAgent)] 20 "L"
        (initRunState wfLoopThrice [("max_loop_iterations", Value.vInt 3)])).1
      = ["L", "B", "B", "B", "B"] ∧
    dictGet (execute_task [("echo", echoAgent)] 20 "L"
        (initRunState wfLoopThrice [("max_loop_iterations", Value.vInt 3)])).1.context.vars
        "loop_index" = some (Value.vInt 2) := ⟨rfl, rfl⟩

/-- C5 (failing run): in the section-8 end-to-end scenario the condition
placeholder `out1.flag` refers to an agent output, which the substitution
loop (variables only) never resolves, so `eval` raises a SyntaxError on the
dollar sign and the condition is False for both inputs; branch D is
dispatched, and the successor loop then also executes C and D.  Both
inputs therefore visit A, B, D, C, D — never the claimed A, B, C /
A, B, D alone. -/
theorem end_to_end_scenario_visits :
    visitedIds (execute_task [("echo", echoAgent)] 20 "A"
        (initRunState wfEndToEnd [("flag", Value.vBool true)])).1 = ["A", "B", "D", "C", "D"] ∧
    visitedIds (execute_task [("echo", echoAgent)] 20 "A"
        (initRunState wfEndToEnd [("flag", Value.vBool false)])).1 = ["A", "B", "D", "C", "D"] :=
  ⟨rfl, rfl⟩

/-- C1 (counterexample): a definition whose entry task id resolves to no
task is registered without any rejection, and executing it hits the
unknown task id at run time — the run fails with the task-not-found
message instead of registration failing. -/
theorem dangling_entry_registered_then_runtime_failure :
    dictGet (register_workflow emptyOrch wfDangling).workflows "wf-bad" = some wfDangling ∧
    (match execute_workflow (register_workflow emptyOrch wfDangling) "wf-bad" [] 20 "e1" with
     | .ok p => p.2.status = WorkflowStatus.failed ∧
                p.2.errors = ["Task missing not found in workflow"]
     | .error _ => False) :=
  ⟨rfl, rfl, rfl⟩

/-- C4 (counterexample): a handler that signals failure by returning a
Failed completion status does not abort the walk — the successor T2 still
executes (its output k2 lands in the snapshot, its AgentExecution is
recorded), nothing is appended to errors, no k1 output is stored, and the
run reports Completed. -/
theorem failed_status_handler_run_completes :
    (match execute_workflow orchFailStatus "wf-fail" [] 20 "e4" with
     | .ok p => p.2.status = WorkflowStatus.completed ∧ p.2.errors = [] ∧
                (dictGet p.2.task_executions "T2").isSome = true ∧
                p.2.context = [("variables", Value.vDict []),
                               ("agent_outputs", Value.vDict [("k2", Value.vDict [])])]
     | .error _ => False) ∧
    visitedIds (execute_task orchFailStatus.agents 20 "T1" (initRunState wfFailStatus [])).1
      = ["T1", "T2"] :=
  ⟨⟨rfl, rfl, rfl, rfl⟩, rfl⟩

/-- C6 (counterexample): one run of a Parallel workflow permanently clears
the Parallel node's successor list inside the registered definition — the
registry no longer holds the original definition — and a second run of
that stored definition visits only the Parallel node, never the branches. -/
theorem parallel_run_mutates_registered_definition :
    dictGet orchParAfter.workflows "wf-par" = some (clearNextTasks wfPar "P") ∧
    nextTasksOf (clearNextTasks wfPar "P") "P" = [] ∧
    nextTasksOf wfPar "P" = ["X", "Y"] ∧
    dictGet orchParAfter.workflows "wf-par" ≠ some wfPar ∧
    visitedIds (execute_task orchParAfter.agents 20 "P"
        (initRunState (clearNextTasks wfPar "P") [])).1 = ["P"] := by
  refine ⟨rfl, rfl, rfl, ?_, rfl⟩
  intro h
  have h2 : (some [] : Option (List String)) = some ["X", "Y"] :=
    congrArg (fun ow : Option WorkflowDefinition => ow.map (fun w => nextTasksOf w "P")) h
  simp at h2

/-- C8 (counterexample): the evaluator does not always return a boolean —
the raw `eval` result is passed through, so the condition string `1`
evaluates to the integer 1. -/
theorem evaluate_condition_returns_nonboolean :
    evaluate_condition "1" emptyCtx = Value.vInt 1 ∧
    isVBool (evaluate_condition "1" emptyCtx) = false :=
  ⟨rfl, rfl⟩

/-
Shared helper lemmas about error propagation, usable by several claim
proofs (claim theorems themselves are never reused).
-/

/-- Failed evaluation collapses to Python False. -/
theorem evaluate_condition_of_error (c : String) (ctx : WorkflowContext) (e : String)
    (h : pyEval (substitutedCondition c ctx) = .error e) :
    evaluate_condition c ctx = .vBool false := by
  unfold evaluate_condition
  rw [h]

/-- A handler invocation that raises makes `_execute_sequential_task` raise
with the same message and leave the state untouched. -/
theorem execute_sequential_task_raise (agents : List (String × Agent)) (task : WorkflowTask)
    (s : RunState) (aid : String) (ag : Agent) (e : String)
    (hid : task.agent_id = some aid) (hne : aid ≠ "") (hag : dictGet agents aid = some ag)
    (hraise : ∀ inp, ag inp = .error e) :
    execute_sequential_task agents task s = (s, some e) := by
  unfold execute_sequential_task
  rw [hid]
  simp only [if_neg hne, hag, hraise]

/-- An exception from the walk is caught by `execute_workflow`: the stored
execution is Failed and carries exactly that message. -/
theorem execute_workflow_of_walk_error (o : Orchestrator) (wid : String)
    (input : List (String × Value)) (fuel : Nat) (eid : String) (w : WorkflowDefinition)
    (s2 : RunState) (e : String) (hw : dictGet o.workflows wid = some w)
    (hrun : execute_task o.agents fuel w.entry_task_id (initRunState w input) = (s2, some e)) :
    (match execute_workflow o wid input fuel eid with
     | .ok p => p.2.status = WorkflowStatus.failed ∧ p.2.errors = [e]
     | .error _ => False) := by
  simp [execute_workflow, hw, hrun]

/-- C1 (amended): `register_workflow` performs no validation — every
definition is stored as given — and a dangling task id is detected only at
run time: the walk raises a task-not-found error the moment it reaches the
unknown id, and `execute_workflow` converts that into a Failed execution
carrying the message. -/
theorem registration_skips_validation_runtime_detects :
    (∀ (o : Orchestrator) (w : WorkflowDefinition),
       dictGet (register_workflow o w).workflows w.id = some w) ∧
    (∀ (agents : List (String × Agent)) (fuel : Nat) (tid : String) (s : RunState),
       s.workflow.get_task tid = none →
       execute_task agents (fuel + 1) tid s
         = (s, some ("Task " ++ tid ++ " not found in workflow"))) ∧
    (∀ (o : Orchestrator) (wid : String) (input : List (String × Value)) (fuel : Nat)
       (eid : String) (w : WorkflowDefinition) (s2 : RunState) (e : String),
       dictGet o.workflows wid = some w →
       execute_task o.agents fuel w.entry_task_id (initRunState w input) = (s2, some e) →
       (match execute_workflow o wid input fuel eid with
        | .ok p => p.2.status = WorkflowStatus.failed ∧ p.2.errors = [e]
        | .error _ => False)) := by
  refine ⟨?_, ?_, ?_⟩
  · intro o w
    simp [register_workflow, dictGet_dictSet_self]
  · intro agents fuel tid s h
    simp [execute_task, execute_task_body, h]
  · intro o wid input fuel eid w s2 e hw hrun
    exact execute_workflow_of_walk_error o wid input fuel eid w s2 e hw hrun

/-- Witness for C1 (amended) on the dangling-entry fixture: registration
stores the bad definition, the walk fails at the unknown entry id, and the
execution comes back Failed with that message. -/
theorem registration_skips_validation_runtime_detects_witness :
    dictGet (register_workflow emptyOrch wfDangling).workflows "wf-bad" = some wfDangling ∧
    execute_task ([] : List (String × Agent)) 20 "missing" (initRunState wfDangling [])
      = (initRunState wfDangling [], some "Task missing not found in workflow") ∧
    (match execute_workflow (register_workflow emptyOrch wfDangling) "wf-bad" [] 20 "e1" with
     | .ok p => p.2.status = WorkflowStatus.failed ∧
                p.2.errors = ["Task missing not found in workflow"]
     | .error _ => False) :=
  ⟨registration_skips_validation_runtime_detects.1 emptyOrch wfDangling,
   registration_skips_validation_runtime_detects.2.1 [] 19 "missing"
     (initRunState wfDangling []) rfl,
   registration_skips_validation_runtime_detects.2.2 (register_workflow emptyOrch wfDangling)
     "wf-bad" [] 20 "e1" wfDangling (initRunState wfDangling [])
     "Task missing not found in workflow" rfl rfl⟩

/-- C4 (amended): only a handler that RAISES aborts the walk — the
sequential dispatch re-raises with the handler's message and no state
change, the enclosing `_execute_task` records only this task's history
entry annotated with the error and walks no successor, and
`execute_workflow` turns the exception into a Failed execution carrying
the message.  A handler that merely RETURNS (whatever its completion
status, including Failed) never raises, so the walk continues. -/
theorem handler_raise_aborts_walk :
    (∀ (agents : List (String × Agent)) (task : WorkflowTask) (s : RunState)
       (aid : String) (ag : Agent) (e : String),
       task.agent_id = some aid → aid ≠ "" → dictGet agents aid = some ag →
       (∀ inp, ag inp = .error e) →
       execute_sequential_task agents task s = (s, some e)) ∧
    (∀ (agents : List (String × Agent)) (fuel : Nat) (tid : String) (s : RunState)
       (task : WorkflowTask) (aid : String) (ag : Agent) (e : String),
       s.workflow.get_task tid = some task → task.type = .sequential →
       task.agent_id = some aid → aid ≠ "" → dictGet agents aid = some ag →
       (∀ inp, ag inp = .error e) →
       execute_task agents (fuel + 1) tid s =
         ({ s with context := { s.context with execution_history :=
              s.context.execution_history
                ++ [{ task_id := task.id, task_name := task.name, type := task.type,
                      error := some e }] } }, some e)) ∧
    (∀ (o : Orchestrator) (wid : String) (input : List (String × Value)) (fuel : Nat)
       (eid : String) (w : WorkflowDefinition) (s2 : RunState) (e : String),
       dictGet o.workflows wid = some w →
       execute_task o.agents fuel w.entry_task_id (initRunState w input) = (s2, some e) →
       (match execute_workflow o wid input fuel eid with
        | .ok p => p.2.status = WorkflowStatus.failed ∧ p.2.errors = [e]
        | .error _ => False)) ∧
    (∀ (agents : List (String × Agent)) (task : WorkflowTask) (s : RunState)
       (aid : String) (ag : Agent),
       task.agent_id = some aid → aid ≠ "" → dictGet agents aid = some ag →
       (∀ inp, ∃ ae, ag inp = .ok ae) →
       (execute_sequential_task agents task s).2 = none) := by
  refine ⟨execute_sequential_task_raise, ?_, ?_, ?_⟩
  · intro agents fuel tid s task aid ag e hfind htype hid hne hag hraise
    obtain ⟨i2, n2, t2, a2, m2, o2, c2, x2⟩ := task
    simp only at htype hid ⊢
    subst htype
    have hdisp : execute_sequential_task agents
        ⟨i2, n2, .sequential, a2, m2, o2, c2, x2⟩
        (pushHistory s ⟨i2, n2, .sequential, a2, m2, o2, c2, x2⟩)
        = (pushHistory s ⟨i2, n2, .sequential, a2, m2, o2, c2, x2⟩, some e) :=
      execute_sequential_task_raise agents _ _ aid ag e hid hne hag hraise
    simp only [execute_task, execute_task_body, hfind, hdisp]
    simp [setLastHistError, pushHistory, setLastErr_append]
  · intro o wid input fuel eid w s2 e hw hrun
    exact execute_workflow_of_walk_error o wid input fuel eid w s2 e hw hrun
  · intro agents task s aid ag hid hne hag hok
    obtain ⟨ae, hae⟩ := hok (task.input_mapping.foldl
      (fun acc kv =>
        if isVNone (s.context.get kv.2 Value.vNone) = true then acc
        else dictSet acc kv.1 (s.context.get kv.2 Value.vNone)) [])
    unfold execute_sequential_task
    rw [hid]
    simp only [if_neg hne, hag, hae]

/-- Witness for C4 (amended) on the raising-handler fixture: the dispatch
raises, the walk stops with only R's annotated history entry, the run is
Failed with the message, and the failed-status handler's dispatch returns
without raising. -/
theorem handler_raise_aborts_walk_witness :
    execute_sequential_task [("boom", raiseAgent), ("echo", echoAgent)]
        (seqTask "R" "boom" [] (some "kr") ["S"]) (initRunState wfRaise [])
      = (initRunState wfRaise [], some "handler exploded") ∧
    execute_task orchRaise.agents 20 "R" rsRaise
      = ({ rsRaise with context := { rsRaise.context with
             execution_history := [{ task_id := "R", task_name := "R",
                                     type := TaskType.sequential,
                                     error := some "handler exploded" }] } },
         some "handler exploded") ∧
    (match execute_workflow orchRaise "wf-raise" [] 20 "er" with
     | .ok p => p.2.status = WorkflowStatus.failed ∧ p.2.errors = ["handler exploded"]
     | .error _ => False) ∧
    (execute_sequential_task [("failer", failStatusAgent)]
        (seqTask "T1" "failer" [] (some "k1") ["T2"]) (initRunState wfFailStatus [])).2 = none :=
  ⟨handler_raise_aborts_walk.1 _ _ _ "boom" raiseAgent "handler exploded" rfl
     (by decide) rfl (fun _ => rfl),
   handler_raise_aborts_walk.2.1 orchRaise.agents 19 "R" rsRaise
     (seqTask "R" "boom" [] (some "kr") ["S"]) "boom" raiseAgent "handler exploded"
     rfl rfl rfl (by decide) rfl (fun _ => rfl),
   handler_raise_aborts_walk.2.2.1 orchRaise "wf-raise" [] 20 "er" wfRaise
     (execute_task orchRaise.agents 20 "R" rsRaise).1
     "handler exploded" rfl rfl,
   handler_raise_aborts_walk.2.2.2 _ _ _ "failer" failStatusAgent rfl (by decide) rfl
     (fun _ => ⟨_, rfl⟩)⟩

/-- C8 (amended): condition evaluation is total over an arbitrary returned
value (not necessarily a boolean) consumed by truthiness; whenever `eval`
of the substituted string fails, the evaluator returns False, a
Conditional routes exactly as a false condition would (second successor if
present, else no-op) without raising, and a Loop iteration stops cleanly
after writing `loop_index`, in neither case surfacing any error. -/
theorem condition_evaluation_failsafe :
    (∀ (c : String) (ctx : WorkflowContext) (e : String),
       pyEval (substitutedCondition c ctx) = .error e →
       evaluate_condition c ctx = .vBool false) ∧
    (∀ (f : String → RunState → RunState × Option String) (task : WorkflowTask)
       (s : RunState) (c : String) (e : String),
       task.condition = some c → c ≠ "" →
       pyEval (substitutedCondition c s.context) = .error e →
       execute_conditional_task f task s =
         (match task.next_tasks with
          | _ :: t1 :: _ => f t1 s
          | _ => (s, none))) ∧
    (∀ (f : String → RunState → RunState × Option String) (task : WorkflowTask)
       (rem i : Nat) (s : RunState) (c : String) (e : String),
       task.condition = some c → c ≠ "" →
       pyEval (substitutedCondition c
         (s.context.set "loop_index" (Value.vInt (Int.ofNat i)))) = .error e →
       loopIter f task (rem + 1) i s =
         ({ s with context := s.context.set "loop_index" (Value.vInt (Int.ofNat i)) }, none)) := by
  refine ⟨evaluate_condition_of_error, ?_, ?_⟩
  · intro f task s c e hc hne hev
    unfold execute_conditional_task
    rw [hc]
    simp only [if_neg hne]
    rw [evaluate_condition_of_error c s.context e hev]
    cases task.next_tasks with
    | nil => rfl
    | cons t0 rest =>
      cases rest with
      | nil => rfl
      | cons t1 rest2 => rfl
  · intro f task rem i s c e hc hne hev
    simp only [loopIter]
    rw [hc]
    simp only [if_neg hne]
    rw [evaluate_condition_of_error _ _ e hev]
    rfl

/-- Witness for C8 (amended) on the end-to-end conditional fixture, whose
placeholder condition cannot be substituted: the evaluator yields False,
the conditional routes to its second successor D, and a loop iteration
stops without error. -/
theorem condition_evaluation_failsafe_witness :
    evaluate_condition "$\x7bout1.flag\x7d == true" emptyCtx = Value.vBool false ∧
    execute_conditional_task (fun tid s => (s, some tid)) e2eCond
        (initRunState wfEndToEnd []) = (initRunState wfEndToEnd [], some "D") ∧
    loopIter (fun tid s => (s, some tid)) e2eCond 3 0 (initRunState wfEndToEnd [])
      = ({ initRunState wfEndToEnd [] with context :=
            (initRunState wfEndToEnd []).context.set "loop_index" (Value.vInt 0) }, none) :=
  ⟨condition_evaluation_failsafe.1 "$\x7bout1.flag\x7d == true" emptyCtx
     "SyntaxError: invalid syntax" rfl,
   condition_evaluation_failsafe.2.1 (fun tid s => (s, some tid)) e2eCond
     (initRunState wfEndToEnd []) "$\x7bout1.flag\x7d == true"
     "SyntaxError: invalid syntax" rfl (by decide) rfl,
   condition_evaluation_failsafe.2.2 (fun tid s => (s, some tid)) e2eCond 2 0
     (initRunState wfEndToEnd []) "$\x7bout1.flag\x7d == true"
     "SyntaxError: invalid syntax" rfl (by decide) rfl⟩

/-- C10: for a registered workflow id, `execute_workflow` never propagates
an exception from the walk: it always returns an execution in a terminal
status (Completed or Failed) with started/completed timestamps set, the
duration metric recorded, the context snapshot holding the walk's final
variables and agent outputs, and the execution stored in the orchestrator's
executions map under its id. -/
theorem execute_workflow_always_finalizes :
    ∀ (o : Orchestrator) (wid : String) (input : List (String × Value)) (fuel : Nat)
      (eid : String) (w : WorkflowDefinition),
      dictGet o.workflows wid = some w →
      (match execute_workflow o wid input fuel eid with
       | .ok p =>
         (p.2.status = WorkflowStatus.completed ∨ p.2.status = WorkflowStatus.failed) ∧
         p.2.started_at = some () ∧ p.2.completed_at = some () ∧
         dictMem p.2.metrics "duration_seconds" = true ∧
         p.2.context = [("variables", Value.vDict
             (execute_task o.agents fuel w.entry_task_id (initRunState w input)).1.context.vars),
           ("agent_outputs", Value.vDict
             (execute_task o.agents fuel w.entry_task_id
               (initRunState w input)).1.context.agent_outputs)] ∧
         p.2.id = eid ∧ dictGet p.1.executions eid = some p.2
       | .error _ => False) := by
  intro o wid input fuel eid w hw
  rcases hr : execute_task o.agents fuel w.entry_task_id (initRunState w input) with ⟨s2, err⟩
  cases err with
  | none => simp [execute_workflow, hw, hr, dictMem, dictGet, dictGet_dictSet_self]
  | some e => simp [execute_workflow, hw, hr, dictMem, dictGet, dictGet_dictSet_self]

/-- Witness for C10 on the failed-status fixture. -/
theorem execute_workflow_always_finalizes_witness :
    (match execute_workflow orchFailStatus "wf-fail" [] 20 "e10" with
     | .ok p =>
       (p.2.status = WorkflowStatus.completed ∨ p.2.status = WorkflowStatus.failed) ∧
       p.2.started_at = some () ∧ p.2.completed_at = some () ∧
       dictMem p.2.metrics "duration_seconds" = true ∧
       p.2.context = [("variables", Value.vDict
           (execute_task orchFailStatus.agents 20 wfFailStatus.entry_task_id
             (initRunState wfFailStatus [])).1.context.vars),
         ("agent_outputs", Value.vDict
           (execute_task orchFailStatus.agents 20 wfFailStatus.entry_task_id
             (initRunState wfFailStatus [])).1.context.agent_outputs)] ∧
       p.2.id = "e10" ∧ dictGet p.1.executions "e10" = some p.2
     | .error _ => False) :=
  execute_workflow_always_finalizes orchFailStatus "wf-fail" [] 20 "e10" wfFailStatus rfl

/-
Generic preservation scaffold: a binary state relation `P` that holds of
every atomic mutation of the walk is carried through `_execute_task`'s
recursion.  Instantiated below with agent-output monotonicity (C7) and
with the definition-mutation bound (C6).
-/

section Preservation

variable {P : RunState → RunState → Prop}

theorem runTaskList_pres (f : String → RunState → RunState × Option String)
    (htrans : ∀ a b c, P a b → P b c → P a c) (hrefl : ∀ s, P s s)
    (hf : ∀ tid s, P s (f tid s).1) :
    ∀ (ids : List String) (s : RunState), P s (runTaskList f ids s).1 := by
  intro ids
  induction ids with
  | nil => intro s; exact hrefl s
  | cons tid rest ih =>
    intro s
    have hstep := hf tid s
    simp only [runTaskList]
    rcases hr : f tid s with ⟨s2, err⟩
    rw [hr] at hstep
    cases err with
    | none => exact htrans _ _ _ hstep (ih s2)
    | some e => exact hstep

theorem loopIter_pres (f : String → RunState → RunState × Option String)
    (task : WorkflowTask)
    (htrans : ∀ a b c, P a b → P b c → P a c) (hrefl : ∀ s, P s s)
    (hset : ∀ (s : RunState) (i : Nat),
      P s { s with context := s.context.set "loop_index" (Value.vInt (Int.ofNat i)) })
    (hf : ∀ tid s, P s (f tid s).1) :
    ∀ (rem i : Nat) (s : RunState), P s (loopIter f task rem i s).1 := by
  intro rem
  induction rem with
  | zero => intro i s; exact hrefl s
  | succ rem ih =>
    intro i s
    simp only [loopIter]
    split
    · split
      next s2 e heq =>
        refine htrans _ _ _ (hset s i) ?_
        cases hnt : task.next_tasks with
        | nil =>
          rw [hnt] at heq
          dsimp only at heq
          injection heq with h1 h2
          exact Option.noConfusion h2
        | cons t0 rest2 =>
          rw [hnt] at heq
          dsimp only at heq
          have hb := hf t0 { s with context := s.context.set "loop_index" (Value.vInt (Int.ofNat i)) }
          rw [heq] at hb
          exact hb
      next s2 heq =>
        refine htrans _ _ _ (htrans _ _ _ (hset s i) ?_) (ih (i + 1) s2)
        cases hnt : task.next_tasks with
        | nil =>
          rw [hnt] at heq
          dsimp only at heq
          injection heq with h1 h2
          rw [← h1]
          exact hrefl _
        | cons t0 rest2 =>
          rw [hnt] at heq
          dsimp only at heq
          have hb := hf t0 { s with context := s.context.set "loop_index" (Value.vInt (Int.ofNat i)) }
          rw [heq] at hb
          exact hb
    · exact hset s i

theorem execute_conditional_task_pres (f : String → RunState → RunState × Option String)
    (task : WorkflowTask) (hrefl : ∀ s, P s s) (hf : ∀ tid s, P s (f tid s).1) :
    ∀ s, P s (execute_conditional_task f task s).1 := by
  intro s
  unfold execute_conditional_task
  cases task.condition with
  | none => exact hrefl s
  | some c =>
    by_cases hc : c = ""
    · simp only [if_pos hc]
      exact hrefl s
    · simp only [if_neg hc]
      cases pyTruthy (evaluate_condition c s.context) <;> cases task.next_tasks with
      | nil => exact hrefl s
      | cons t0 rest =>
        first
        | exact hf t0 s
        | cases rest with
          | nil => exact hrefl s
          | cons t1 rest2 => exact hf t1 s

theorem execute_task_body_pres (agents : List (String × Agent))
    (f : String → RunState → RunState × Option String)
    (htrans : ∀ a b c, P a b → P b c → P a c) (hrefl : ∀ s, P s s)
    (hpush : ∀ s t, P s (pushHistory s t))
    (herr : ∀ s e, P s (setLastHistError s e))
    (hset : ∀ (s : RunState) (i : Nat),
      P s { s with context := s.context.set "loop_index" (Value.vInt (Int.ofNat i)) })
    (hseq : ∀ task s, P s (execute_sequential_task agents task s).1)
    (hclear : ∀ (s : RunState) (tid : String) (task : WorkflowTask),
      s.workflow.get_task tid = some task → task.type = .parallel →
      P s { s with workflow := clearNextTasks s.workflow task.id })
    (hf : ∀ tid s, P s (f tid s).1) :
    ∀ (tid : String) (s : RunState), P s (execute_task_body agents f tid s).1 := by
  intro tid s
  rcases hfind : s.workflow.get_task tid with _ | task
  · simp only [execute_task_body, hfind]
    exact hrefl s
  · simp only [execute_task_body, hfind]
    have hfind2 : (pushHistory s task).workflow.get_task tid = some task := hfind
    have hdisp : P (pushHistory s task)
        (match task.type with
         | .sequential => execute_sequential_task agents task (pushHistory s task)
         | .parallel => execute_parallel_tasks f task (pushHistory s task)
         | .conditional => execute_conditional_task f task (pushHistory s task)
         | .loop => execute_loop_task f task (pushHistory s task)).1 := by
      cases htype : task.type with
      | sequential => exact hseq task (pushHistory s task)
      | parallel =>
        unfold execute_parallel_tasks
        exact htrans _ _ _ (hclear (pushHistory s task) tid task hfind2 htype)
          (runTaskList_pres f htrans hrefl hf task.next_tasks _)
      | conditional => exact execute_conditional_task_pres f task hrefl hf (pushHistory s task)
      | loop =>
        unfold execute_loop_task
        cases toIterCount ((pushHistory s task).context.get "max_loop_iterations" (Value.vInt 10)) with
        | none => exact hrefl _
        | some n => exact loopIter_pres f task htrans hrefl hset hf n 0 _
    have hps : P s (pushHistory s task) := hpush s task
    rcases hd : (match task.type with
         | .sequential => execute_sequential_task agents task (pushHistory s task)
         | .parallel => execute_parallel_tasks f task (pushHistory s task)
         | .conditional => execute_conditional_task f task (pushHistory s task)
         | .loop => execute_loop_task f task (pushHistory s task)) with ⟨s2, err⟩
    rw [hd] at hdisp
    rw [hd]
    have h02 : P s s2 := htrans _ _ _ hps hdisp
    cases err with
    | some e => exact htrans _ _ _ h02 (herr s2 e)
    | none =>
      dsimp only
      have hnext := runTaskList_pres f htrans hrefl hf (nextTasksOf s2.workflow tid) s2
      rcases hn : runTaskList f (nextTasksOf s2.workflow tid) s2 with ⟨s3, err2⟩
      rw [hn] at hnext
      have h03 : P s s3 := htrans _ _ _ h02 hnext
      cases err2 with
      | some e => exact htrans _ _ _ h03 (herr s3 e)
      | none => exact h03

theorem execute_task_pres (agents : List (String × Agent))
    (htrans : ∀ a b c, P a b → P b c → P a c) (hrefl : ∀ s, P s s)
    (hpush : ∀ s t, P s (pushHistory s t))
    (herr : ∀ s e, P s (setLastHistError s e))
    (hset : ∀ (s : RunState) (i : Nat),
      P s { s with context := s.context.set "loop_index" (Value.vInt (Int.ofNat i)) })
    (hseq : ∀ task s, P s (execute_sequential_task agents task s).1)
    (hclear : ∀ (s : RunState) (tid : String) (task : WorkflowTask),
      s.workflow.get_task tid = some task → task.type = .parallel →
      P s { s with workflow := clearNextTasks s.workflow task.id }) :
    ∀ (fuel : Nat) (tid : String) (s : RunState), P s (execute_task agents fuel tid s).1 := by
  intro fuel
  induction fuel with
  | zero => intro tid s; exact hrefl s
  | succ fuel ih =>
    intro tid s
    exact execute_task_body_pres agents (execute_task agents fuel)
      htrans hrefl hpush herr hset hseq hclear ih tid s

end Preservation

/-- Agent outputs written by a sequential dispatch only grow the map. -/
theorem execute_sequential_task_outputs_mono (agents : List (String × Agent))
    (task : WorkflowTask) (s : RunState) :
    ∀ k, dictMem s.context.agent_outputs k = true →
      dictMem (execute_sequential_task agents task s).1.context.agent_outputs k = true := by
  intro k h
  unfold execute_sequential_task
  dsimp only
  repeat' split
  all_goals try exact h
  all_goals exact dictMem_dictSet_of_mem _ _ _ _ h

/-- The workflow definition is untouched by a sequential dispatch. -/
theorem execute_sequential_task_workflow (agents : List (String × Agent))
    (task : WorkflowTask) (s : RunState) :
    (execute_sequential_task agents task s).1.workflow = s.workflow := by
  unfold execute_sequential_task
  dsimp only
  repeat' split
  all_goals rfl

/-- C7: a Sequential task with a nonempty output key writes the handler's
output into agent_outputs exactly when the recorded handler execution
completed (nothing is written on a Failed status, and a raising dispatch
leaves the state untouched), and the whole walk only ever adds keys to
agent_outputs, so a key once written is still present in the final
context. -/
theorem sequential_output_key_semantics :
    (∀ (agents : List (String × Agent)) (task : WorkflowTask) (s s2 : RunState)
       (k : String) (ae : AgentExecution),
       execute_sequential_task agents task s = (s2, none) →
       task.output_key = some k → k ≠ "" →
       dictGet s2.task_executions task.id = some ae →
       ((ae.status = AgentStatus.completed →
          dictGet s2.context.agent_outputs k = some ae.output_data) ∧
        (ae.status ≠ AgentStatus.completed →
          s2.context.agent_outputs = s.context.agent_outputs))) ∧
    (∀ (agents : List (String × Agent)) (task : WorkflowTask) (s s2 : RunState) (e : String),
       execute_sequential_task agents task s = (s2, some e) → s2 = s) ∧
    (∀ (agents : List (String × Agent)) (fuel : Nat) (tid : String) (s : RunState)
       (k : String),
       dictMem s.context.agent_outputs k = true →
       dictMem (execute_task agents fuel tid s).1.context.agent_outputs k = true) := by
  refine ⟨?_, ?_, ?_⟩
  · intro agents task s s2 k ae h hk hne hget
    unfold execute_sequential_task at h
    split at h
    · exact absurd (congrArg Prod.snd h) (by simp)
    next aid heqid =>
      split at h
      · exact absurd (congrArg Prod.snd h) (by simp)
      next hNE =>
        split at h
        · exact absurd (congrArg Prod.snd h) (by simp)
        next ag heqag =>
          split at h
          next okey heqok =>
            rw [hk] at heqok
            injection heqok with hko
            subst hko
            dsimp only at h
            split at h
            · exact absurd (congrArg Prod.snd h) (by simp)
            next ae2 heqr =>
              split at h
              next hcond =>
                injection h with h1 _
                subst h1
                dsimp only at hget
                rw [dictGet_dictSet_self] at hget
                injection hget with hae
                subst hae
                constructor
                · intro _
                  exact dictGet_dictSet_self _ _ _
                · intro hne2
                  exact absurd hcond.2 hne2
              next hcond =>
                injection h with h1 _
                subst h1
                dsimp only at hget
                rw [dictGet_dictSet_self] at hget
                injection hget with hae
                subst hae
                constructor
                · intro hc
                  exact absurd ⟨hne, hc⟩ hcond
                · intro _
                  rfl
          next heqok =>
            rw [hk] at heqok
            exact Option.noConfusion heqok
  · intro agents task s s2 e h
    unfold execute_sequential_task at h
    split at h
    · injection h with h1 _
      exact h1.symm
    next aid heqid =>
      split at h
      · injection h with h1 _
        exact h1.symm
      next hNE =>
        split at h
        · injection h with h1 _
          exact h1.symm
        next ag heqag =>
          split at h
          next okey heqok =>
            dsimp only at h
            split at h
            next e2 heqr =>
              injection h with h1 _
              exact h1.symm
            next ae2 heqr =>
              exact absurd (congrArg Prod.snd h) (by simp)
          next heqok =>
            dsimp only at h
            split at h
            next e2 heqr =>
              injection h with h1 _
              exact h1.symm
            next ae2 heqr =>
              exact absurd (congrArg Prod.snd h) (by simp)
  · intro agents fuel tid s k h
    exact @execute_task_pres
      (fun a b => ∀ k2, dictMem a.context.agent_outputs k2 = true →
        dictMem b.context.agent_outputs k2 = true)
      agents
      (fun a b c hab hbc k2 hk2 => hbc k2 (hab k2 hk2))
      (fun _ k2 hk2 => hk2)
      (fun _ _ k2 hk2 => hk2)
      (fun _ _ k2 hk2 => hk2)
      (fun _ _ k2 hk2 => hk2)
      (fun task2 s2 k2 hk2 => execute_sequential_task_outputs_mono agents task2 s2 k2 hk2)
      (fun _ _ _ _ _ k2 hk2 => hk2)
      fuel tid s k h

/-- Witness for C7: the echo handler's completed run writes its output
under k2, a raising dispatch leaves the state untouched, and an existing
output key survives a whole walk. -/
theorem sequential_output_key_semantics_witness :
    ((AgentExecution.mk AgentStatus.completed (Value.vDict []) []).status
        = AgentStatus.completed →
      dictGet (execute_sequential_task [("echo", echoAgent)]
          (seqTask "T2" "echo" [] (some "k2") []) (initRunState wfFailStatus [])).1.context.agent_outputs
        "k2" = some (Value.vDict [])) ∧
    (execute_sequential_task [("boom", raiseAgent)]
        (seqTask "R" "boom" [] (some "kr") ["S"]) rsRaise).1 = rsRaise ∧
    dictMem (execute_task orchRaise.agents 20 "R"
        { rsRaise with context := { rsRaise.context with
            agent_outputs := [("seed", Value.vInt 7)] } }).1.context.agent_outputs
      "seed" = true :=
  ⟨fun hc => ((sequential_output_key_semantics.1 [("echo", echoAgent)]
      (seqTask "T2" "echo" [] (some "k2") []) (initRunState wfFailStatus [])
      (execute_sequential_task [("echo", echoAgent)]
        (seqTask "T2" "echo" [] (some "k2") []) (initRunState wfFailStatus [])).1
      "k2" (AgentExecution.mk AgentStatus.completed (Value.vDict []) [])
      rfl rfl (by decide) rfl).1 hc),
   sequential_output_key_semantics.2.1 [("boom", raiseAgent)]
     (seqTask "R" "boom" [] (some "kr") ["S"]) rsRaise
     (execute_sequential_task [("boom", raiseAgent)]
       (seqTask "R" "boom" [] (some "kr") ["S"]) rsRaise).1
     "handler exploded" rfl,
   sequential_output_key_semantics.2.2 orchRaise.agents 20 "R"
     { rsRaise with context := { rsRaise.context with
         agent_outputs := [("seed", Value.vInt 7)] } } "seed" rfl⟩

/-- How a single task may differ after a run: unchanged, or — only for a
Parallel task — its successor list cleared. -/
def taskRel (t t2 : WorkflowTask) : Prop :=
  t2 = t ∨ (t.type = TaskType.parallel ∧ t2 = { t with next_tasks := [] })

/-- How a whole definition may differ after a run: every scalar field
unchanged and tasks pointwise related by `taskRel`. -/
def defRel (w w2 : WorkflowDefinition) : Prop :=
  w2.id = w.id ∧ w2.name = w.name ∧ w2.description = w.description ∧
  w2.entry_task_id = w.entry_task_id ∧ w2.vars = w.vars ∧
  List.Forall₂ taskRel w.tasks w2.tasks

theorem taskRel_refl (t : WorkflowTask) : taskRel t t := Or.inl rfl

theorem taskRel_trans {a b c : WorkflowTask} (h1 : taskRel a b) (h2 : taskRel b c) :
    taskRel a c := by
  rcases h1 with rfl | ⟨hp, rfl⟩
  · exact h2
  · rcases h2 with rfl | ⟨hp2, rfl⟩
    · exact Or.inr ⟨hp, rfl⟩
    · exact Or.inr ⟨hp, rfl⟩

theorem forall₂_taskRel_refl : ∀ l : List WorkflowTask, List.Forall₂ taskRel l l := by
  intro l
  induction l with
  | nil => exact .nil
  | cons t rest ih => exact .cons (taskRel_refl t) ih

theorem forall₂_taskRel_trans {l1 l2 l3 : List WorkflowTask}
    (h1 : List.Forall₂ taskRel l1 l2) (h2 : List.Forall₂ taskRel l2 l3) :
    List.Forall₂ taskRel l1 l3 := by
  induction h1 generalizing l3 with
  | nil =>
    cases h2
    exact .nil
  | cons hab h1rest ih =>
    cases h2 with
    | cons hbc h2rest => exact .cons (taskRel_trans hab hbc) (ih h2rest)

theorem defRel_refl (w : WorkflowDefinition) : defRel w w :=
  ⟨rfl, rfl, rfl, rfl, rfl, forall₂_taskRel_refl w.tasks⟩

theorem defRel_trans {a b c : WorkflowDefinition} (h1 : defRel a b) (h2 : defRel b c) :
    defRel a c := by
  obtain ⟨i1, n1, d1, e1, v1, t1⟩ := h1
  obtain ⟨i2, n2, d2, e2, v2, t2⟩ := h2
  exact ⟨i2.trans i1, n2.trans n1, d2.trans d1, e2.trans e1, v2.trans v1,
    forall₂_taskRel_trans t1 t2⟩

/-- Clearing the successor list of the first task found under a Parallel
id relates the task lists. -/
theorem clearNextTasksList_rel :
    ∀ (tasks : List WorkflowTask) (tid : String) (task : WorkflowTask),
      List.find? (fun t => t.id == tid) tasks = some task → task.type = TaskType.parallel →
      List.Forall₂ taskRel tasks (clearNextTasksList tasks task.id) := by
  intro tasks
  induction tasks with
  | nil =>
    intro tid task h hp
    simp at h
  | cons t rest ih =>
    intro tid task h hp
    by_cases hpt : (t.id == tid) = true
    · rw [@List.find?_cons_of_pos _ (fun x => x.id == tid) t rest hpt] at h
      injection h with heq
      subst heq
      unfold clearNextTasksList
      rw [if_pos (by simp)]
      exact .cons (Or.inr ⟨hp, rfl⟩) (forall₂_taskRel_refl rest)
    · rw [@List.find?_cons_of_neg _ (fun x => x.id == tid) t rest hpt] at h
      have hidt : (task.id == tid) = true :=
        @List.find?_some _ (fun x => x.id == tid) task rest h
      have hne : (t.id == task.id) = false := by
        rw [eq_of_beq hidt]
        exact Bool.eq_false_iff.mpr hpt
      unfold clearNextTasksList
      rw [if_neg (by simp [hne])]
      exact .cons (taskRel_refl t) (ih tid task h hp)

/-- The Parallel dispatch's in-place mutation respects `defRel`. -/
theorem clearNextTasks_defRel (w : WorkflowDefinition) (tid : String) (task : WorkflowTask)
    (h : w.get_task tid = some task) (hp : task.type = TaskType.parallel) :
    defRel w (clearNextTasks w task.id) :=
  ⟨rfl, rfl, rfl, rfl, rfl, clearNextTasksList_rel w.tasks tid task h hp⟩

/-- Field-wise equality of workflow definitions. -/
theorem workflowDefinition_eq (w w2 : WorkflowDefinition)
    (h1 : w2.id = w.id) (h2 : w2.name = w.name) (h3 : w2.description = w.description)
    (h4 : w2.tasks = w.tasks) (h5 : w2.entry_task_id = w.entry_task_id)
    (h6 : w2.vars = w.vars) : w2 = w := by
  cases w
  cases w2
  simp only at h1 h2 h3 h4 h5 h6
  subst h1
  subst h2
  subst h3
  subst h4
  subst h5
  subst h6
  rfl

/-- Tasks pointwise related with no Parallel on the left are equal lists. -/
theorem forall₂_taskRel_no_parallel :
    ∀ (l1 l2 : List WorkflowTask), List.Forall₂ taskRel l1 l2 →
      (∀ t ∈ l1, t.type ≠ TaskType.parallel) → l2 = l1 := by
  intro l1 l2 hf
  induction hf with
  | nil => intro _; rfl
  | cons hab hrest ih =>
    intro hn
    rcases hab with rfl | ⟨hp, _⟩
    · rw [ih (fun t ht => hn t (List.mem_cons_of_mem _ ht))]
    · exact absurd hp (hn _ (List.mem_cons_self _ _))

/-- C6 (amended): executing a workflow can mutate the registered definition
in exactly one way — a task dispatched as Parallel has its successor list
cleared in place; every other field and task is untouched, and a
definition none of whose tasks is Parallel is wholly unchanged by any
walk.  (In particular a Parallel node's successors are consumed for the
definition itself, not merely for one invocation.) -/
theorem definition_mutation_bounded_by_parallel_clearing :
    (∀ (agents : List (String × Agent)) (fuel : Nat) (tid : String) (s : RunState),
       defRel s.workflow (execute_task agents fuel tid s).1.workflow) ∧
    (∀ (agents : List (String × Agent)) (fuel : Nat) (tid : String) (s : RunState),
       (∀ t ∈ s.workflow.tasks, t.type ≠ TaskType.parallel) →
       (execute_task agents fuel tid s).1.workflow = s.workflow) := by
  have main : ∀ (agents : List (String × Agent)) (fuel : Nat) (tid : String) (s : RunState),
      defRel s.workflow (execute_task agents fuel tid s).1.workflow := by
    intro agents
    exact @execute_task_pres (fun a b => defRel a.workflow b.workflow) agents
      (fun _ _ _ h1 h2 => defRel_trans h1 h2)
      (fun _ => defRel_refl _)
      (fun _ _ => defRel_refl _)
      (fun _ _ => defRel_refl _)
      (fun _ _ => defRel_refl _)
      (fun task2 s2 => by
        show defRel s2.workflow (execute_sequential_task agents task2 s2).1.workflow
        rw [execute_sequential_task_workflow]
        exact defRel_refl _)
      (fun s2 tid2 task2 hfind htype => clearNextTasks_defRel s2.workflow tid2 task2 hfind htype)
  refine ⟨main, ?_⟩
  intro agents fuel tid s hnp
  obtain ⟨hid, hname, hdesc, hentry, hvars, htasks⟩ := main agents fuel tid s
  exact workflowDefinition_eq s.workflow _ hid hname hdesc
    (forall₂_taskRel_no_parallel _ _ htasks hnp) hentry hvars

/-- Witness for C6 (amended) on the raising-handler fixture, whose workflow
carries no Parallel task: the definition relation holds and the definition
is unchanged by the walk. -/
theorem definition_mutation_bounded_by_parallel_clearing_witness :
    defRel rsRaise.workflow (execute_task orchRaise.agents 20 "R" rsRaise).1.workflow ∧
    (execute_task orchRaise.agents 20 "R" rsRaise).1.workflow = rsRaise.workflow :=
  ⟨definition_mutation_bounded_by_parallel_clearing.1 orchRaise.agents 20 "R" rsRaise,
   definition_mutation_bounded_by_parallel_clearing.2 orchRaise.agents 20 "R" rsRaise
     (by decide)⟩

end AgentFlow
